import Mathlib

/-!
Shallow embedding of the resource-quantity parsing and deployment-template
validation core of the repository (src/util/helper.go and the
DeploymentTemplateValidate source file).

Modelling conventions:
* Go float64 values are modelled as exact rationals; no claim here depends on
  rounding, and the conversion tables and comparisons are exact.
* Go functions that can panic (failing type assertions, indexing an empty
  match list) are modelled with an explicit panic outcome.
* The two compiled regular expressions are modelled by executable functions
  computing the first (leftmost) match and its two capture groups, following
  the leftmost-first, greedy semantics of Go's regexp package for these
  specific patterns.
-/

attribute [local semireducible] Rat.mul Rat.add Rat.inv Rat.sub

namespace Devtron

/-- Numeric value of a list of decimal digit characters, most significant
digit first. -/
def digitsVal (ds : List Char) : ℕ :=
  ds.foldl (fun a c => 10 * a + (c.toNat - 48)) 0

/-- Model of Go `strconv.ParseFloat(s, 64)` on the decimal / scientific
grammar: optional sign, integer digits, optional fraction, optional
`e`/`E` exponent with optional sign, at least one mantissa digit, and the
whole input must be consumed.  Hexadecimal, `inf` and `NaN` forms cannot
occur among this program's inputs and are not modelled; the value is kept
exact instead of rounded to float64 (so the out-of-range error is not
modelled either). `none` models a non-nil error. -/
def strconvParseFloat (cs0 : List Char) : Option ℚ :=
  let sgn : ℚ := if cs0.head? = some '-' then -1 else 1
  let cs1 : List Char := if cs0.head? = some '+' ∨ cs0.head? = some '-' then cs0.tail else cs0
  let ip := cs1.takeWhile Char.isDigit
  let cs2 := cs1.dropWhile Char.isDigit
  let fp : List Char := if cs2.head? = some '.' then cs2.tail.takeWhile Char.isDigit else []
  let cs3 : List Char := if cs2.head? = some '.' then cs2.tail.dropWhile Char.isDigit else cs2
  if ip.isEmpty ∧ fp.isEmpty then none
  else
    let mant : ℚ := sgn * ((digitsVal ip : ℚ) + (digitsVal fp : ℚ) / (10 : ℚ) ^ fp.length)
    if cs3.isEmpty then some mant
    else if cs3.head? = some 'e' ∨ cs3.head? = some 'E' then
      let esgn : ℤ := if cs3.tail.head? = some '-' then -1 else 1
      let r1 : List Char :=
        if cs3.tail.head? = some '+' ∨ cs3.tail.head? = some '-' then cs3.tail.tail else cs3.tail
      let ed := r1.takeWhile Char.isDigit
      let rest := r1.dropWhile Char.isDigit
      if ed.isEmpty ∨ ¬ rest.isEmpty then none
      else some (mant * (10 : ℚ) ^ (esgn * (digitsVal ed : ℤ)))
    else none

/-- Model of Go `strconv.ParseInt(s, 10, 64)`: optional sign, nonempty
digits, whole input consumed, value within the signed 64-bit range. -/
def strconvParseInt64 (cs0 : List Char) : Option ℤ :=
  let sgn : ℤ := if cs0.head? = some '-' then -1 else 1
  let cs1 : List Char := if cs0.head? = some '+' ∨ cs0.head? = some '-' then cs0.tail else cs0
  if cs1.isEmpty ∨ ¬ cs1.all Char.isDigit then none
  else
    let v : ℤ := sgn * (digitsVal cs1 : ℤ)
    if v < -(2 ^ 63) ∨ 2 ^ 63 - 1 < v then none else some v

/-- util.ParseFloat from src/util/helper.go: try strconv.ParseFloat first;
on error strip commas, and if an `e`/`E` is present parse mantissa and
exponent separately and combine as mantissa times ten to the exponent
(math.Pow10 is modelled exactly; its overflow to infinity beyond exponent
308 is out of the modelled range; strings.IndexAny's byte index coincides
with the character index on the ASCII inputs this parser receives).
`none` models a returned error. -/
def ParseFloat (s : String) : Option ℚ :=
  match strconvParseFloat s.data with
  | some v => some v
  | none =>
    let cs := s.data.filter (fun c => c != ',')
    match cs.findIdx? (fun c => c == 'e' || c == 'E') with
    | none => strconvParseFloat cs
    | some pos =>
      match strconvParseFloat (cs.take pos) with
      | none => none
      | some base =>
        match strconvParseInt64 (cs.drop (pos + 1)) with
        | none => none
        | some e => some (base * (10 : ℚ) ^ e)

/-- The group-2 alternation `(Ei?|Pi?|Ti?|Gi?|Mi?|Ki?|$)` of the memory
pattern, tried at one position: a unit letter with a greedy optional `i`,
or end of input (which captures the empty string). -/
def memSuffixAt : List Char → Option (List Char)
  | [] => some []
  | c :: rest =>
    if c = 'E' ∨ c = 'P' ∨ c = 'T' ∨ c = 'G' ∨ c = 'M' ∨ c = 'K' then
      some (if rest.head? = some 'i' then [c, 'i'] else [c])
    else none

/-- Match of the memory pattern `(\d*e?\d*)(Ei?|Pi?|Ti?|Gi?|Mi?|Ki?|$)` at a
single start position, with the greedy group-1 decomposition.  Backtracking
to a shorter group 1 never yields a match that the greedy decomposition
misses: every shorter candidate resumes at a decimal digit or at the literal
`e`, and no alternative of group 2 starts with either. -/
def memGroupsAt (cs : List Char) : Option (List Char × List Char) :=
  if (cs.dropWhile Char.isDigit).head? = some 'e' then
    (memSuffixAt ((cs.dropWhile Char.isDigit).tail.dropWhile Char.isDigit)).map
      (fun g2 =>
        (cs.takeWhile Char.isDigit ++ 'e' :: (cs.dropWhile Char.isDigit).tail.takeWhile Char.isDigit, g2))
  else (memSuffixAt (cs.dropWhile Char.isDigit)).map (fun g2 => (cs.takeWhile Char.isDigit, g2))

/-- Leftmost match of the memory pattern: try each start position from the
left, as Go `FindAllStringSubmatch` does for the first element of its
result. -/
def memFirstFrom : List Char → Option (List Char × List Char)
  | [] => memGroupsAt []
  | c :: rest =>
    match memGroupsAt (c :: rest) with
    | some g => some g
    | none => memFirstFrom rest

/-- `FindAllStringSubmatch(memory, -1)[0]` of the memory pattern: the full
match followed by the two capture groups.  `none` models an empty match
list (no match anywhere). -/
def memRe (cs : List Char) : Option (List (List Char)) :=
  (memFirstFrom cs).map (fun g => [g.1 ++ g.2, g.1, g.2])

/-- Match of the CPU pattern `(\d*e?\d*)(m?)` at the start of the input.
All parts are optional, so the pattern matches at position 0 of every
string and the leftmost match always starts there. -/
def cpuGroupsAt (cs : List Char) : List Char × List Char :=
  if (cs.dropWhile Char.isDigit).head? = some 'e' then
    (cs.takeWhile Char.isDigit ++ 'e' :: (cs.dropWhile Char.isDigit).tail.takeWhile Char.isDigit,
     if ((cs.dropWhile Char.isDigit).tail.dropWhile Char.isDigit).head? = some 'm' then ['m'] else [])
  else
    (cs.takeWhile Char.isDigit,
     if (cs.dropWhile Char.isDigit).head? = some 'm' then ['m'] else [])

/-- `FindAllStringSubmatch(cpu, -1)[0]` of the CPU pattern. -/
def cpuRe (cs : List Char) : Option (List (List Char)) :=
  some [(cpuGroupsAt cs).1 ++ (cpuGroupsAt cs).2, (cpuGroupsAt cs).1, (cpuGroupsAt cs).2]

/-- The cpuParser conversions table: "m" maps to .001 (exact 1/1000 here). -/
def cpuConversions (s : String) : Option ℚ :=
  if s = "m" then some (1 / 1000) else none

/-- The memoryParser conversions table from MemoryToNumber. -/
def memConversions (s : String) : Option ℚ :=
  if s = "E" then some 1000000000000000000
  else if s = "P" then some 1000000000000000
  else if s = "T" then some 1000000000000
  else if s = "G" then some 1000000000
  else if s = "M" then some 1000000
  else if s = "K" then some 1000
  else if s = "Ei" then some 1152921504606846976
  else if s = "Pi" then some 1125899906842624
  else if s = "Ti" then some 1099511627776
  else if s = "Gi" then some 1073741824
  else if s = "Mi" then some 1048576
  else if s = "Ki" then some 1024
  else none

/-- Outcome of convertResource: Go returns (float64, error) but can also
panic when it indexes `matches[0]` on an empty match list.  `errMatch`
models both `fmt.Errorf("expected pattern ...")` returns (the length-check
branch and the conversions-table-miss branch, which carry the same
message); `errParse` models propagating the ParseFloat error with value 0. -/
inductive QuantityResult
  | panic
  | errMatch
  | errParse
  | ok (q : ℚ)
deriving DecidableEq

/-- convertResource from src/util/helper.go.  `re` yields
`FindAllStringSubmatch(resource, -1)[0]` (none = empty match list, whose
indexing panics); the submatch slice holds the full match and the two
groups, so its length is 3. -/
def convertResource (re : List Char → Option (List (List Char)))
    (conversions : String → Option ℚ) (resource : String) : QuantityResult :=
  match re resource.data with
  | none => .panic
  | some groups =>
    if groups.length < 2 then .errMatch
    else
      match ParseFloat (groups.getD 1 []).asString with
      | none => .errParse
      | some num =>
        if groups.length = 3 ∧ groups.getD 2 [] ≠ [] then
          match conversions (groups.getD 2 []).asString with
          | some mult => .ok (num * mult)
          | none => .errMatch
        else .ok num

/-- CpuToNumber from src/util/helper.go (the lazily initialised cpuParser is
inlined: its pattern and conversions table are fixed). -/
def CpuToNumber (cpu : String) : QuantityResult :=
  convertResource cpuRe cpuConversions cpu

/-- MemoryToNumber from src/util/helper.go (memoryParser inlined). -/
def MemoryToNumber (memory : String) : QuantityResult :=
  convertResource memRe memConversions memory

/-- A decoded JSON-like document node (Go `interface{}` after
json.Unmarshal): string, bool, number, object, array or null. -/
inductive Jval
  | str (s : String)
  | bool (b : Bool)
  | num (q : ℚ)
  | obj (fields : List (String × Jval))
  | arr (elems : List Jval)
  | null

/-- A decoded JSON object, Go `map[string]interface{}`. -/
abbrev Obj := List (String × Jval)

/-- Go map indexing `m[k]`: `none` is the absent key (a nil interface). -/
def jlookup : Obj → String → Option Jval
  | [], _ => none
  | (k, v) :: rest, key => if k = key then some v else jlookup rest key

/-- A Go type assertion `x.(map[string]interface{})` in single-value form:
it panics (`none`) unless the value is present and is an object. -/
def asObj : Option Jval → Option Obj
  | some (.obj o) => some o
  | _ => none

/-- `dat["resources"].(map[string]interface{})["limits"].(map[string]interface{})`:
`none` models a panic of one of the two type assertions. -/
def primLimits (dat : Obj) : Option Obj :=
  (asObj (jlookup dat "resources")).bind fun r => asObj (jlookup r "limits")

/-- Same path with "requests". -/
def primRequests (dat : Obj) : Option Obj :=
  (asObj (jlookup dat "resources")).bind fun r => asObj (jlookup r "requests")

/-- `dat["envoyproxy"].(map)["resources"].(map)["limits"].(map)`. -/
def envoLimits (dat : Obj) : Option Obj :=
  (asObj (jlookup dat "envoyproxy")).bind fun e =>
    (asObj (jlookup e "resources")).bind fun r => asObj (jlookup r "limits")

/-- Same path with "requests". -/
def envoRequests (dat : Obj) : Option Obj :=
  (asObj (jlookup dat "envoyproxy")).bind fun e =>
    (asObj (jlookup e "resources")).bind fun r => asObj (jlookup r "requests")

/-- Result of the validation call: Go `(bool, error)` plus the possibility
of a runtime panic.  `ok` is `(true, nil)`; `err msg` is `(false, errors.New(msg))`. -/
inductive VResult
  | panic
  | err (msg : String)
  | ok
deriving DecidableEq

/-- The value component of `v, _ := CpuToNumber(...)`: the error is
discarded and the value is 0 on the error returns; a panic inside the
callee propagates (`none`). -/
def goValue : QuantityResult → Option ℚ
  | .panic => none
  | .errMatch => some 0
  | .errParse => some 0
  | .ok q => some q

/-- The autoscaling-enabled body of DeploymentTemplateValidate (lines
108-158 of the source): eight leaf presence checks in source order, each
re-traversing its nested maps with panicking type assertions; then the
`.(string)` assertions and the parses (parse errors discarded, value 0),
then the four limit/request comparisons. -/
def checkEnabled (dat : Obj) : VResult :=
  match primLimits dat with
  | none => .panic
  | some lim =>
  match jlookup lim "cpu" with
  | none => .err "CPU limit is required"
  | some cl =>
  match jlookup lim "memory" with
  | none => .err "Memory limit is required"
  | some ml =>
  match primRequests dat with
  | none => .panic
  | some req =>
  match jlookup req "cpu" with
  | none => .err "CPU requests is required"
  | some cr =>
  match jlookup req "memory" with
  | none => .err "Memory requests is required"
  | some mr =>
  match envoLimits dat with
  | none => .panic
  | some elim =>
  match jlookup elim "cpu" with
  | none => .err "Envoproxy CPU limit is required"
  | some ecl =>
  match jlookup elim "memory" with
  | none => .err "Envoproxy Memory limit is required"
  | some eml =>
  match envoRequests dat with
  | none => .panic
  | some ereq =>
  match jlookup ereq "cpu" with
  | none => .err "Envoproxy CPU requests is required"
  | some ecr =>
  match jlookup ereq "memory" with
  | none => .err "Envoproxy memory requests is required"
  | some emr =>
  match cl, ml, cr, mr, ecl, eml, ecr, emr with
  | .str scl, .str sml, .str scr, .str smr, .str secl, .str seml, .str secr, .str semr =>
    match goValue (CpuToNumber scl), goValue (MemoryToNumber sml),
          goValue (CpuToNumber scr), goValue (MemoryToNumber smr),
          goValue (CpuToNumber secl), goValue (MemoryToNumber seml),
          goValue (CpuToNumber secr), goValue (MemoryToNumber semr) with
    | some cpu_limit, some memory_limit, some cpu_request, some memory_request,
      some e_cpu_limit, some e_memory_limit, some e_cpu_request, some e_memory_request =>
      if e_cpu_limit < e_cpu_request ∨ e_memory_limit < e_memory_request ∨
         cpu_limit < cpu_request ∨ memory_limit < memory_request then
        .err "requests is greater than limits"
      else .ok
    | _, _, _, _, _, _, _, _ => .panic
  | _, _, _, _, _, _, _, _ => .panic

/-- The invariant-check region of DeploymentTemplateValidate (lines
106-161): read `dat["autoscaling"].(map[string]interface{})["enabled"]`
(the map assertion panics if the key is absent or not an object; the index
is in comma-ok form), and run the enabled body only when the flag is a
true bool; a present non-bool flag panics in `autoscaleEnabled.(bool)`. -/
def checkResourceInvariants (dat : Obj) : VResult :=
  match jlookup dat "autoscaling" with
  | some (.obj a) =>
    match jlookup a "enabled" with
    | none => .ok
    | some (.bool b) => if b then checkEnabled dat else .ok
    | some _ => .panic
  | _ => .panic

/-- One schema-validation error as the engine reports it: field path,
the declared format being checked if any (`err.Details()["format"]`), and
the engine's own message (`err.String()`). -/
structure SchemaErr where
  field : String
  format : Option String
  message : String

/-- The outcome of `gojsonschema.Validate`: either a non-nil error or a
result with a validity flag and an error list. -/
inductive EngineOutcome
  | engineErr (e : String)
  | res (valid : Bool) (errs : List SchemaErr)

/-- The environment of one DeploymentTemplateValidate call: the responses
of its external collaborators (file system, json codec, schema engine).
`decoded` is the unmarshalling of the marshalled template into
`map[string]interface{}` (`none` = non-nil error).  Failures of the schema
file open/read and of the schema-JSON unmarshal are logged and ignored by
the source, so they do not appear here as failure modes of their own. -/
structure ValidateEnv where
  schemaExists : Bool
  marshalOk : Bool
  marshalErr : String
  engine : EngineOutcome
  decoded : Option Obj
  decodeErr : String

/-- cpuPattern constant from the source. -/
def cpuPattern : String := "\"50m\" or \"0.05\""

/-- memoryPattern constant from the source. -/
def memoryPattern : String := "\"100Mi\" or \"1Gi\" or \"1Ti\""

/-- One line of the schema-invalidity diagnostic string. -/
def diagLine (e : SchemaErr) : String :=
  if e.format = some "cpu" then e.field ++ ": Format should be like " ++ cpuPattern ++ "\n"
  else if e.format = some "memory" then e.field ++ ": Format should be like " ++ memoryPattern ++ "\n"
  else e.message ++ "\n"

/-- DeploymentTemplateValidate's control flow over its environment: a
missing schema file returns (true, nil); with a schema, the template is
marshalled (error returned), the engine is run (error returned), an invalid
result is turned into the newline-joined diagnostic string, and a valid
result re-decodes the document and runs the invariant-check region. -/
def DeploymentTemplateValidate (env : ValidateEnv) : VResult :=
  if env.schemaExists then
    if env.marshalOk then
      match env.engine with
      | .engineErr e => .err e
      | .res valid errs =>
        if valid then
          match env.decoded with
          | none => .err env.decodeErr
          | some dat => checkResourceInvariants dat
        else .err (String.join (errs.map diagLine))
    else .err env.marshalErr
  else .ok

/-- Character class `[0-9.]`. -/
def isCpuChar (c : Char) : Bool := c.isDigit || c = '.'

/-- `CpuUnitChecker = ^([0-9.]+)m$`: the last character is `m` and the
nonempty remainder is all `[0-9.]`. -/
def cpuUnitMatch (cs : List Char) : Bool :=
  cs.getLast? == some 'm' && !cs.dropLast.isEmpty && cs.dropLast.all isCpuChar

/-- `NoCpuUnitChecker = ^([0-9.]+)$`. -/
def noCpuUnitMatch (cs : List Char) : Bool :=
  !cs.isEmpty && cs.all isCpuChar

/-- `CpuChecker.IsFormat` from the validation source: non-strings are
valid; strings must match one of the two CPU regexes. -/
def CpuCheckerIsFormat (input : Jval) : Bool :=
  match input with
  | .str s =>
    if cpuUnitMatch s.data then true
    else if noCpuUnitMatch s.data then true
    else false
  | _ => true

/-- `^[0-9]+<u>$` for a unit suffix `u` that does not start with a digit
(the MiChecker/GiChecker/TiChecker/PiChecker/KiChecker regex family). -/
def memUnitMatch (u : List Char) (cs : List Char) : Bool :=
  !(cs.takeWhile Char.isDigit).isEmpty && cs.dropWhile Char.isDigit == u

/-- `MemoryChecker.IsFormat` from the validation source. -/
def MemoryCheckerIsFormat (input : Jval) : Bool :=
  match input with
  | .str s =>
    if memUnitMatch ['M', 'i'] s.data then true
    else if memUnitMatch ['G', 'i'] s.data then true
    else if memUnitMatch ['T', 'i'] s.data then true
    else if memUnitMatch ['P', 'i'] s.data then true
    else if memUnitMatch ['K', 'i'] s.data then true
    else false
  | _ => true

/-- Following the claim's words (spec side of C8): a string is a valid CPU
format iff it matches `^[0-9.]+m$` or `^[0-9.]+$`; non-strings are valid.
Stated with the bare form first and through a reversed-list decomposition,
independently of the source's getLast?/dropLast formulation. -/
def cpuFormatSpec (input : Jval) : Bool :=
  match input with
  | .str s =>
    (decide (s.data ≠ []) && s.data.all isCpuChar) ||
    (match s.data.reverse with
     | c :: body => c == 'm' && decide (body ≠ []) && body.all isCpuChar
     | [] => false)
  | _ => true

/-- Following the claim's words (spec side of C8): a string is a valid
memory format iff it matches the single alternation `^[0-9]+(Ki|Mi|Gi|Ti|Pi)$`
(suffixes in the claim's order), rather than the source's five separate
regexes; non-strings are valid. -/
def memFormatSpec (input : Jval) : Bool :=
  match input with
  | .str s =>
    !(s.data.takeWhile Char.isDigit).isEmpty &&
      (s.data.dropWhile Char.isDigit == ['K', 'i'] ||
       s.data.dropWhile Char.isDigit == ['M', 'i'] ||
       s.data.dropWhile Char.isDigit == ['G', 'i'] ||
       s.data.dropWhile Char.isDigit == ['T', 'i'] ||
       s.data.dropWhile Char.isDigit == ['P', 'i'])
  | _ => true

/-- Following the claim's words (spec side of C6): the first absent leaf
among the eight presence checks, in the claimed fixed order, with its
claimed message; `none` when all eight are present. -/
def firstMissing (lim req elim ereq : Obj) : Option String :=
  if (jlookup lim "cpu").isNone then some "CPU limit is required"
  else if (jlookup lim "memory").isNone then some "Memory limit is required"
  else if (jlookup req "cpu").isNone then some "CPU requests is required"
  else if (jlookup req "memory").isNone then some "Memory requests is required"
  else if (jlookup elim "cpu").isNone then some "Envoproxy CPU limit is required"
  else if (jlookup elim "memory").isNone then some "Envoproxy Memory limit is required"
  else if (jlookup ereq "cpu").isNone then some "Envoproxy CPU requests is required"
  else if (jlookup ereq "memory").isNone then some "Envoproxy memory requests is required"
  else none

/-- The parsed-or-zero quantity a leaf string contributes to the
comparison stage (CPU family). -/
def cpuQty (s : String) : ℚ := (goValue (CpuToNumber s)).getD 0

/-- The parsed-or-zero quantity a leaf string contributes to the
comparison stage (memory family). -/
def memQty (s : String) : ℚ := (goValue (MemoryToNumber s)).getD 0

/-- The captured numeric literal (group 1) of the CPU pattern's first match. -/
def cpuLit (s : String) : List Char :=
  ((cpuRe s.data).getD []).getD 1 []

/-- The captured numeric literal (group 1) of the memory pattern's first match. -/
def memLit (s : String) : List Char :=
  ((memRe s.data).getD []).getD 1 []

/-- A document whose autoscaling flag is enabled but that has no
"resources" key at all (used to exercise the missing-map behaviour). -/
def datEnabledOnly : Obj :=
  [("autoscaling", .obj [("enabled", .bool true)])]

/-- A document with autoscaling enabled and all four nested maps present
but empty: the first presence check fails. -/
def datEmptyBlocks : Obj :=
  [("autoscaling", .obj [("enabled", .bool true)]),
   ("resources", .obj [("limits", .obj []), ("requests", .obj [])]),
   ("envoyproxy", .obj [("resources", .obj [("limits", .obj []), ("requests", .obj [])])])]

/-- A document with autoscaling enabled, all eight leaves present as
strings, and limits equal to requests in every dimension. -/
def datEqual : Obj :=
  [("autoscaling", .obj [("enabled", .bool true)]),
   ("resources", .obj
     [("limits", .obj [("cpu", .str "100m"), ("memory", .str "1Gi")]),
      ("requests", .obj [("cpu", .str "100m"), ("memory", .str "1Gi")])]),
   ("envoyproxy", .obj [("resources", .obj
     [("limits", .obj [("cpu", .str "50m"), ("memory", .str "100Mi")]),
      ("requests", .obj [("cpu", .str "50m"), ("memory", .str "100Mi")])])])]

/-! ### Helper lemmas -/

theorem cpuGroupsAt_snd (cs : List Char) :
    (cpuGroupsAt cs).2 = [] ∨ (cpuGroupsAt cs).2 = ['m'] := by
  unfold cpuGroupsAt
  split <;> dsimp only <;> split
  · right; rfl
  · left; rfl
  · right; rfl
  · left; rfl

theorem memSuffixAt_shape (cs g2 : List Char) (h : memSuffixAt cs = some g2) :
    g2 = [] ∨ memConversions g2.asString ≠ none := by
  cases cs with
  | nil =>
    left
    simpa [memSuffixAt] using h.symm
  | cons c rest =>
    simp only [memSuffixAt] at h
    by_cases hc : c = 'E' ∨ c = 'P' ∨ c = 'T' ∨ c = 'G' ∨ c = 'M' ∨ c = 'K'
    · rw [if_pos hc] at h
      injection h with h
      subst h
      right
      rcases hc with rfl | rfl | rfl | rfl | rfl | rfl <;> (split <;> decide)
    · rw [if_neg hc] at h
      exact absurd h (by simp)

theorem memGroupsAt_shape (cs : List Char) (g : List Char × List Char)
    (h : memGroupsAt cs = some g) :
    g.2 = [] ∨ memConversions g.2.asString ≠ none := by
  unfold memGroupsAt at h
  split at h <;>
    (rw [Option.map_eq_some'] at h
     obtain ⟨g2, hg2, hf⟩ := h
     have hsh := memSuffixAt_shape _ _ hg2
     rw [← hf]
     simpa using hsh)

theorem memFirstFrom_shape (cs : List Char) :
    ∃ g, memFirstFrom cs = some g ∧ (g.2 = [] ∨ memConversions g.2.asString ≠ none) := by
  induction cs with
  | nil => exact ⟨([], []), rfl, Or.inl rfl⟩
  | cons c rest ih =>
    cases hg : memGroupsAt (c :: rest) with
    | some g =>
      refine ⟨g, ?_, memGroupsAt_shape _ _ hg⟩
      unfold memFirstFrom
      rw [hg]
    | none =>
      obtain ⟨g, hfirst, hshape⟩ := ih
      refine ⟨g, ?_, hshape⟩
      unfold memFirstFrom
      rw [hg, hfirst]

theorem CpuToNumber_spec (s : String) :
    (CpuToNumber s = .errParse ∧ ParseFloat (cpuLit s).asString = none) ∨
    (∃ q, ParseFloat (cpuLit s).asString = some q ∧
       CpuToNumber s = .ok (if (cpuGroupsAt s.data).2 = ['m'] then q * (1 / 1000) else q)) := by
  have hlit : cpuLit s = (cpuGroupsAt s.data).1 := rfl
  rw [hlit]
  unfold CpuToNumber convertResource cpuRe
  cases hp : ParseFloat (cpuGroupsAt s.data).1.asString with
  | none =>
    left
    simp [hp]
  | some q =>
    right
    refine ⟨q, rfl, ?_⟩
    rcases cpuGroupsAt_snd s.data with h2 | h2 <;>
      simp [hp, h2, cpuConversions, show (['m'] : List Char).asString = "m" from by decide]

theorem MemoryToNumber_spec (s : String) :
    ∃ g, memFirstFrom s.data = some g ∧
      ((MemoryToNumber s = .errParse ∧ ParseFloat g.1.asString = none) ∨
       (∃ q mult, ParseFloat g.1.asString = some q ∧ memConversions g.2.asString = some mult ∧
          g.2 ≠ [] ∧ MemoryToNumber s = .ok (q * mult)) ∨
       (∃ q, ParseFloat g.1.asString = some q ∧ g.2 = [] ∧ MemoryToNumber s = .ok q)) := by
  obtain ⟨g, hfirst, hshape⟩ := memFirstFrom_shape s.data
  refine ⟨g, hfirst, ?_⟩
  unfold MemoryToNumber convertResource memRe
  rw [hfirst]
  cases hp : ParseFloat g.1.asString with
  | none =>
    left
    simp [hp]
  | some q =>
    right
    rcases hshape with h2 | h2
    · right
      exact ⟨q, rfl, h2, by simp [hp, h2]⟩
    · left
      cases hm : memConversions g.2.asString with
      | none => exact absurd hm h2
      | some mult =>
        have hne : g.2 ≠ [] := by
          intro hnil
          rw [hnil] at hm
          have hnone : memConversions ([] : List Char).asString = none := by decide
          rw [hnone] at hm
          exact Option.noConfusion hm
        exact ⟨q, mult, rfl, rfl, hne, by simp [hp, hm, hne]⟩

theorem memLit_eq (s : String) (g : List Char × List Char)
    (h : memFirstFrom s.data = some g) : memLit s = g.1 := by
  unfold memLit memRe
  rw [h]
  rfl

/-! ### Claim theorems -/

/-- Claim C1 (code bug): on the CPU family a trailing `m` scales by 1/1000
(`"50m"` gives 0.05) and `"1e3"` parses to 1000; but `"0.05"` parses to 0,
not 0.05: the compiled CPU pattern `(\d*e?\d*)(m?)` has no dot in its
literal group, so the capture on `"0.05"` is just `"0"`, although the
source's own cpuPattern constant and its CpuChecker document `"0.05"` as a
valid CPU quantity.  This theorem evaluates the code at the two conforming
inputs and at the failing input. -/
theorem cpu_parse_values :
    CpuToNumber "50m" = .ok (1 / 20) ∧
    CpuToNumber "1e3" = .ok 1000 ∧
    CpuToNumber "0.05" = .ok 0 := by
  refine ⟨by decide, by decide, by decide⟩

/-- Claim C10: for every input string, CpuToNumber and MemoryToNumber
neither panic (the match list of both patterns is never empty, so indexing
`matches[0]` is safe: the CPU pattern matches the empty string and the
memory pattern's `$` alternative matches at end of input) nor return the
pattern-mismatch error (the submatch slice always has three entries, and
every non-empty captured suffix is a key of the conversions table): the
only possible outcomes are the ParseFloat error with value 0, or a value. -/
theorem quantity_parsers_total (s : String) :
    (CpuToNumber s ≠ .panic ∧ CpuToNumber s ≠ .errMatch ∧
      (CpuToNumber s = .errParse ∨ ∃ q, CpuToNumber s = .ok q)) ∧
    (MemoryToNumber s ≠ .panic ∧ MemoryToNumber s ≠ .errMatch ∧
      (MemoryToNumber s = .errParse ∨ ∃ q, MemoryToNumber s = .ok q)) := by
  constructor
  · rcases CpuToNumber_spec s with ⟨h, _⟩ | ⟨q, _, h⟩ <;>
      (rw [h]; exact ⟨by simp, by simp, by simp⟩)
  · obtain ⟨g, _, hres⟩ := MemoryToNumber_spec s
    rcases hres with ⟨h, _⟩ | ⟨q, mult, _, _, _, h⟩ | ⟨q, _, _, h⟩ <;>
      (rw [h]; exact ⟨by simp, by simp, by simp⟩)

/-- Claim C3, counterexample: the claim says a recognized suffix with
trailing garbage, such as `"50x"` on the CPU family, is a MalformedQuantity
error; but the code only ever reads the first regex match and never checks
that it covers the whole input, so `CpuToNumber "50x"` returns the value 50
with a nil error. -/
theorem cpu_trailing_garbage_accepted : CpuToNumber "50x" = .ok 50 := by decide

/-- Claim C3 (amended): ParseQuantity fails exactly when util.ParseFloat
fails on the captured literal group of the first regex match; the
grammar-mismatch error branches are unreachable, and input not covered by
the first match (such as trailing garbage) is ignored rather than
rejected. On all other inputs a value is returned without error. -/
theorem parse_error_iff_literal_unparseable (s : String) :
    (CpuToNumber s = .errParse ↔ ParseFloat (cpuLit s).asString = none) ∧
    (MemoryToNumber s = .errParse ↔ ParseFloat (memLit s).asString = none) ∧
    (CpuToNumber s = .errParse ∨ ∃ q, CpuToNumber s = .ok q) ∧
    (MemoryToNumber s = .errParse ∨ ∃ q, MemoryToNumber s = .ok q) := by
  refine ⟨?_, ?_, ?_, ?_⟩
  · rcases CpuToNumber_spec s with ⟨h, hp⟩ | ⟨q, hp, h⟩ <;> rw [h, hp]
    · simp
    · simp
  · obtain ⟨g, hfirst, hres⟩ := MemoryToNumber_spec s
    rw [memLit_eq s g hfirst]
    rcases hres with ⟨h, hp⟩ | ⟨q, mult, hp, _, _, h⟩ | ⟨q, hp, _, h⟩ <;> rw [h, hp] <;> simp
  · rcases CpuToNumber_spec s with ⟨h, _⟩ | ⟨q, _, h⟩ <;> rw [h] <;> simp
  · obtain ⟨g, _, hres⟩ := MemoryToNumber_spec s
    rcases hres with ⟨h, _⟩ | ⟨q, mult, _, _, _, h⟩ | ⟨q, _, _, h⟩ <;> rw [h] <;> simp

/-- Claim C3 (amended) exercised at concrete inputs: `".05"` errors on the
CPU family because the captured literal is `"0"`-less (the dot stops the
capture at once, leaving an empty literal), and `"50x"` succeeds. -/
theorem parse_error_iff_literal_unparseable_witness :
    CpuToNumber ".05" = .errParse ∧ (∃ q, CpuToNumber "50x" = .ok q) := by
  constructor
  · exact (parse_error_iff_literal_unparseable ".05").1.mpr (by decide)
  · rcases (parse_error_iff_literal_unparseable "50x").2.2.1 with h | h
    · exact absurd h (by decide)
    · exact h

/-- Claim C4, counterexample: the claim says `ParseQuantity("1,000", family)`
equals `ParseQuantity("1000", family)`; but the literal capture group
`\d*e?\d*` cannot contain a comma, so on the CPU family `"1,000"` parses as
1 while `"1000"` parses as 1000. -/
theorem comma_grouped_not_equal :
    CpuToNumber "1,000" = .ok 1 ∧ CpuToNumber "1000" = .ok 1000 ∧
      CpuToNumber "1,000" ≠ CpuToNumber "1000" := by
  refine ⟨by decide, by decide, by decide⟩

theorem goValue_cpu (s : String) : goValue (CpuToNumber s) = some (cpuQty s) := by
  rcases CpuToNumber_spec s with ⟨h, _⟩ | ⟨q, _, h⟩ <;> rw [cpuQty, h] <;> rfl

theorem goValue_mem (s : String) : goValue (MemoryToNumber s) = some (memQty s) := by
  obtain ⟨g, _, hres⟩ := MemoryToNumber_spec s
  rcases hres with ⟨h, _⟩ | ⟨q, mult, _, _, _, h⟩ | ⟨q, _, _, h⟩ <;> rw [memQty, h] <;> rfl

/-- Claim C2, counterexample: the claim promises ok=true for every document
whose autoscaling.enabled flag is absent; but on a document with no
autoscaling key at all the type assertion
`dat["autoscaling"].(map[string]interface{})` is not in comma-ok form and
panics on the nil interface, so the call does not return ok=true. -/
theorem missing_autoscaling_panics :
    checkResourceInvariants [] = .panic ∧ checkResourceInvariants [] ≠ .ok := by
  decide

/-- Claim C2 (amended): provided the document's autoscaling key is present
and holds an object, an absent enabled flag or enabled=false skips the
invariant check and returns ok=true with no error, regardless of missing or
inconsistent resource fields; when the autoscaling key itself is absent or
not an object the code panics instead. -/
theorem autoscaling_disabled_skips (dat : Obj) (a : Obj)
    (ha : jlookup dat "autoscaling" = some (.obj a))
    (he : jlookup a "enabled" = none ∨ jlookup a "enabled" = some (.bool false)) :
    checkResourceInvariants dat = .ok := by
  rcases he with he | he <;> simp [checkResourceInvariants, ha, he]

/-- Claim C2 (amended) at a concrete input: a document whose autoscaling
object has no enabled flag and that has no resource fields at all. -/
theorem autoscaling_disabled_skips_witness :
    checkResourceInvariants [("autoscaling", Jval.obj [])] = .ok :=
  autoscaling_disabled_skips _ [] rfl (Or.inl rfl)

/-- Claim C5: with an existing schema, a marshalling failure of the
document or a non-nil error from gojsonschema.Validate makes
DeploymentTemplateValidate return (false, err) at once, propagating the
underlying error without building field diagnostics. -/
theorem engine_error_propagates (env : ValidateEnv) (e : String)
    (hs : env.schemaExists = true) :
    (env.marshalOk = true → env.engine = .engineErr e →
      DeploymentTemplateValidate env = .err e) ∧
    (env.marshalOk = false → DeploymentTemplateValidate env = .err env.marshalErr) := by
  constructor
  · intro hm he
    simp [DeploymentTemplateValidate, hs, hm, he]
  · intro hm
    simp [DeploymentTemplateValidate, hs, hm]

/-- Claim C5 at a concrete environment: the engine reports an error and the
call returns exactly that error. -/
theorem engine_error_propagates_witness :
    DeploymentTemplateValidate
      ⟨true, true, "", .engineErr "schema engine failure", none, ""⟩ =
      .err "schema engine failure" :=
  (engine_error_propagates ⟨true, true, "", .engineErr "schema engine failure", none, ""⟩
    "schema engine failure" rfl).1 rfl rfl

/-- Claim C6, counterexample: with autoscaling enabled and the whole
resources section absent, the claim promises the distinct error "CPU limit
is required" for the first absent field; the code instead panics in the
non-comma-ok type assertion on the missing "resources" map. -/
theorem enabled_missing_resources_panics :
    checkResourceInvariants datEnabledOnly = .panic ∧
      checkResourceInvariants datEnabledOnly ≠ .err "CPU limit is required" := by
  decide

theorem checkEnabled_missing (dat lim req elim ereq : Obj) (msg : String)
    (h1 : primLimits dat = some lim) (h2 : primRequests dat = some req)
    (h3 : envoLimits dat = some elim) (h4 : envoRequests dat = some ereq)
    (hm : firstMissing lim req elim ereq = some msg) :
    checkEnabled dat = .err msg := by
  unfold checkEnabled
  rw [h1, h2, h3, h4]
  unfold firstMissing at hm
  cases hc1 : jlookup lim "cpu" with
  | none => simp [hc1] at hm ⊢; exact hm
  | some v1 =>
  simp only [hc1, Option.isNone_some] at hm ⊢
  simp only [Bool.false_eq_true, if_false] at hm
  cases hc2 : jlookup lim "memory" with
  | none => simp [hc2] at hm ⊢; exact hm
  | some v2 =>
  simp only [hc2, Option.isNone_some] at hm ⊢
  simp only [Bool.false_eq_true, if_false] at hm
  cases hc3 : jlookup req "cpu" with
  | none => simp [hc3] at hm ⊢; exact hm
  | some v3 =>
  simp only [hc3, Option.isNone_some] at hm ⊢
  simp only [Bool.false_eq_true, if_false] at hm
  cases hc4 : jlookup req "memory" with
  | none => simp [hc4] at hm ⊢; exact hm
  | some v4 =>
  simp only [hc4, Option.isNone_some] at hm ⊢
  simp only [Bool.false_eq_true, if_false] at hm
  cases hc5 : jlookup elim "cpu" with
  | none => simp [hc5] at hm ⊢; exact hm
  | some v5 =>
  simp only [hc5, Option.isNone_some] at hm ⊢
  simp only [Bool.false_eq_true, if_false] at hm
  cases hc6 : jlookup elim "memory" with
  | none => simp [hc6] at hm ⊢; exact hm
  | some v6 =>
  simp only [hc6, Option.isNone_some] at hm ⊢
  simp only [Bool.false_eq_true, if_false] at hm
  cases hc7 : jlookup ereq "cpu" with
  | none => simp [hc7] at hm ⊢; exact hm
  | some v7 =>
  simp only [hc7, Option.isNone_some] at hm ⊢
  simp only [Bool.false_eq_true, if_false] at hm
  cases hc8 : jlookup ereq "memory" with
  | none => simp [hc8] at hm ⊢; exact hm
  | some v8 =>
  simp only [hc8, Option.isNone_some] at hm
  simp at hm

/-- Claim C6 (amended): when autoscaling is enabled and the four nested
maps resources.limits, resources.requests, envoyproxy.resources.limits and
envoyproxy.resources.requests are all present as objects, the eight leaf
presence checks run in the fixed order primary cpu-limit, primary
memory-limit, primary cpu-request, primary memory-request, sidecar
cpu-limit, sidecar memory-limit, sidecar cpu-request, sidecar
memory-request, and the first absent leaf short-circuits the call with its
own distinct "... is required" error (later fields unchecked); when one of
the containing maps is itself absent the code panics instead of reporting
the missing field. -/
theorem presence_checks_in_order (dat : Obj) (a lim req elim ereq : Obj) (msg : String)
    (ha : jlookup dat "autoscaling" = some (.obj a))
    (he : jlookup a "enabled" = some (.bool true))
    (h1 : primLimits dat = some lim) (h2 : primRequests dat = some req)
    (h3 : envoLimits dat = some elim) (h4 : envoRequests dat = some ereq)
    (hm : firstMissing lim req elim ereq = some msg) :
    checkResourceInvariants dat = .err msg := by
  unfold checkResourceInvariants
  simp only [ha, he]
  rw [if_true]
  exact checkEnabled_missing dat lim req elim ereq msg h1 h2 h3 h4 hm

/-- Claim C6 (amended) at a concrete input: all four maps present and
empty, so the first check in the order fires with "CPU limit is required". -/
theorem presence_checks_in_order_witness :
    checkResourceInvariants datEmptyBlocks = .err "CPU limit is required" :=
  presence_checks_in_order datEmptyBlocks [("enabled", .bool true)] [] [] [] []
    "CPU limit is required" rfl rfl rfl rfl rfl rfl rfl

/-- Claim C7: with autoscaling enabled and all eight leaves present as
strings, the call returns ok exactly when in both blocks limit >= request
holds for cpu and memory (values as the parsers produce them, parse errors
contributing 0), so equality of limit and request passes (the boundary is
inclusive); and when any of the four comparisons has strictly
limit < request, the call fails with the single aggregate message
"requests is greater than limits". -/
theorem limits_ge_requests_boundary (dat : Obj) (a lim req elim ereq : Obj)
    (scl sml scr smr secl seml secr semr : String)
    (ha : jlookup dat "autoscaling" = some (.obj a))
    (he : jlookup a "enabled" = some (.bool true))
    (h1 : primLimits dat = some lim) (h2 : primRequests dat = some req)
    (h3 : envoLimits dat = some elim) (h4 : envoRequests dat = some ereq)
    (l1 : jlookup lim "cpu" = some (.str scl)) (l2 : jlookup lim "memory" = some (.str sml))
    (l3 : jlookup req "cpu" = some (.str scr)) (l4 : jlookup req "memory" = some (.str smr))
    (l5 : jlookup elim "cpu" = some (.str secl)) (l6 : jlookup elim "memory" = some (.str seml))
    (l7 : jlookup ereq "cpu" = some (.str secr)) (l8 : jlookup ereq "memory" = some (.str semr)) :
    (checkResourceInvariants dat = .ok ↔
      (cpuQty secr ≤ cpuQty secl ∧ memQty semr ≤ memQty seml ∧
       cpuQty scr ≤ cpuQty scl ∧ memQty smr ≤ memQty sml)) ∧
    ((cpuQty secl < cpuQty secr ∨ memQty seml < memQty semr ∨
      cpuQty scl < cpuQty scr ∨ memQty sml < memQty smr) →
      checkResourceInvariants dat = .err "requests is greater than limits") := by
  have hred : checkResourceInvariants dat =
      if cpuQty secl < cpuQty secr ∨ memQty seml < memQty semr ∨
         cpuQty scl < cpuQty scr ∨ memQty sml < memQty smr then
        .err "requests is greater than limits"
      else .ok := by
    unfold checkResourceInvariants
    simp only [ha, he]
    rw [if_true]
    unfold checkEnabled
    simp only [h1, l1, l2, h2, l3, l4, h3, l5, l6, h4, l7, l8, goValue_cpu, goValue_mem]
  rw [hred]
  by_cases hlt : cpuQty secl < cpuQty secr ∨ memQty seml < memQty semr ∨
      cpuQty scl < cpuQty scr ∨ memQty sml < memQty smr
  · rw [if_pos hlt]
    constructor
    · constructor
      · intro h
        exact absurd h (by simp)
      · intro hconj
        rcases hlt with h | h | h | h
        · exact absurd h (not_lt.mpr hconj.1)
        · exact absurd h (not_lt.mpr hconj.2.1)
        · exact absurd h (not_lt.mpr hconj.2.2.1)
        · exact absurd h (not_lt.mpr hconj.2.2.2)
    · intro _
      rfl
  · rw [if_neg hlt]
    push_neg at hlt
    constructor
    · simp [hlt.1, hlt.2.1, hlt.2.2.1, hlt.2.2.2]
    · intro hcontra
      rcases hcontra with h | h | h | h
      · exact absurd h (not_lt.mpr hlt.1)
      · exact absurd h (not_lt.mpr hlt.2.1)
      · exact absurd h (not_lt.mpr hlt.2.2.1)
      · exact absurd h (not_lt.mpr hlt.2.2.2)

/-- Claim C7 at a concrete input: all four limit/request pairs equal, and
the call returns ok=true (the boundary is inclusive). -/
theorem limits_ge_requests_boundary_witness :
    checkResourceInvariants datEqual = .ok :=
  (limits_ge_requests_boundary datEqual [("enabled", .bool true)]
    [("cpu", .str "100m"), ("memory", .str "1Gi")]
    [("cpu", .str "100m"), ("memory", .str "1Gi")]
    [("cpu", .str "50m"), ("memory", .str "100Mi")]
    [("cpu", .str "50m"), ("memory", .str "100Mi")]
    "100m" "1Gi" "100m" "1Gi" "50m" "100Mi" "50m" "100Mi"
    rfl rfl rfl rfl rfl rfl rfl rfl rfl rfl rfl rfl rfl rfl).1.mpr
    (by refine ⟨le_refl _, le_refl _, le_refl _, le_refl _⟩)

theorem if_chain_or (a b : Bool) :
    (if a then true else if b then true else false) = (b || a) := by
  cases a <;> cases b <;> rfl

theorem if_chain5_or (a1 a2 a3 a4 a5 : Bool) :
    (if a1 then true
     else if a2 then true
     else if a3 then true
     else if a4 then true
     else if a5 then true
     else false) = (a1 || a2 || a3 || a4 || a5) := by
  cases a1 <;> cases a2 <;> cases a3 <;> cases a4 <;> cases a5 <;> rfl

theorem noCpuUnitMatch_eq (cs : List Char) :
    noCpuUnitMatch cs = (decide (cs ≠ []) && cs.all isCpuChar) := by
  cases cs <;> simp [noCpuUnitMatch]

theorem cpuUnitMatch_eq_rev (cs : List Char) :
    cpuUnitMatch cs =
      (match cs.reverse with
       | c :: body => c == 'm' && decide (body ≠ []) && body.all isCpuChar
       | [] => false) := by
  cases hr : cs.reverse with
  | nil =>
    have hnil : cs = [] := List.reverse_eq_nil_iff.mp hr
    subst hnil
    rfl
  | cons c body =>
    have hcs : cs = body.reverse ++ [c] := by
      rw [← List.reverse_reverse cs, hr, List.reverse_cons]
    rw [hcs]
    unfold cpuUnitMatch
    rw [List.getLast?_concat, List.dropLast_concat]
    simp only [List.all_reverse, Bool.and_assoc, beq_iff_eq, Option.some.injEq]
    cases body with
    | nil => simp
    | cons x xs =>
      have hfe : ((xs.reverse ++ [x]).isEmpty) = false := by
        cases hrev : xs.reverse <;> simp [List.isEmpty]
      simp [hfe]

/-- Claim C8: for every input value, the CPU format checker accepts exactly
the strings matching `^[0-9.]+m$` or `^[0-9.]+$` and the memory format
checker exactly those matching `^[0-9]+(Ki|Mi|Gi|Ti|Pi)$` (spec-side
definitions written independently: bare form first / single alternation in
the claim's order), and every non-string input is accepted by both. -/
theorem format_checkers_match_spec (v : Jval) :
    CpuCheckerIsFormat v = cpuFormatSpec v ∧ MemoryCheckerIsFormat v = memFormatSpec v := by
  constructor
  · cases v with
    | str s =>
      unfold CpuCheckerIsFormat cpuFormatSpec
      dsimp only
      rw [if_chain_or, cpuUnitMatch_eq_rev, noCpuUnitMatch_eq]
    | bool b => rfl
    | num q => rfl
    | obj o => rfl
    | arr l => rfl
    | null => rfl
  · cases v with
    | str s =>
      unfold MemoryCheckerIsFormat memFormatSpec memUnitMatch
      dsimp only
      rw [if_chain5_or]
      generalize (s.data.takeWhile Char.isDigit).isEmpty = A
      generalize (s.data.dropWhile Char.isDigit == ['K', 'i']) = K
      generalize (s.data.dropWhile Char.isDigit == ['M', 'i']) = M
      generalize (s.data.dropWhile Char.isDigit == ['G', 'i']) = G
      generalize (s.data.dropWhile Char.isDigit == ['T', 'i']) = T
      generalize (s.data.dropWhile Char.isDigit == ['P', 'i']) = P
      cases A <;> cases K <;> cases M <;> cases G <;> cases T <;> cases P <;> rfl
    | bool b => rfl
    | num q => rfl
    | obj o => rfl
    | arr l => rfl
    | null => rfl

theorem digit_not_special {c : Char} (h : c.isDigit = true) :
    c ≠ '+' ∧ c ≠ '-' ∧ c ≠ '.' ∧ c ≠ 'e' ∧ c ≠ 'E' ∧ c ≠ ',' := by
  refine ⟨?_, ?_, ?_, ?_, ?_, ?_⟩ <;> (rintro rfl; exact absurd h (by decide))

theorem takeWhile_append_stop {p : Char → Bool} (l r : List Char) (c : Char)
    (hl : ∀ x ∈ l, p x = true) (hc : p c = false) :
    ((l ++ c :: r).takeWhile p = l) ∧ ((l ++ c :: r).dropWhile p = c :: r) := by
  induction l with
  | nil => simp [List.takeWhile_cons, List.dropWhile_cons, hc]
  | cons x xs ih =>
    have hx : p x = true := hl x (by simp)
    have ih2 := ih (fun y hy => hl y (by simp [hy]))
    simp [List.takeWhile_cons, List.dropWhile_cons, hx, ih2.1, ih2.2]

theorem strconvParseFloat_digits (d : List Char) (hne : d ≠ [])
    (hd : ∀ c ∈ d, c.isDigit = true) :
    strconvParseFloat d = some ((digitsVal d : ℚ)) := by
  obtain ⟨c, t, rfl⟩ := List.exists_cons_of_ne_nil hne
  have hc := hd c (by simp)
  have htake : (c :: t).takeWhile Char.isDigit = c :: t := List.takeWhile_eq_self_iff.mpr hd
  have hdrop : (c :: t).dropWhile Char.isDigit = [] := List.dropWhile_eq_nil_iff.mpr hd
  unfold strconvParseFloat
  simp only [List.head?_cons, Option.some.injEq]
  rw [if_neg (digit_not_special hc).2.1,
    if_neg (not_or.mpr ⟨(digit_not_special hc).1, (digit_not_special hc).2.1⟩)]
  simp [htake, hdrop]
  rfl

theorem ParseFloat_digits (d : List Char) (hne : d ≠ [])
    (hd : ∀ c ∈ d, c.isDigit = true) :
    ParseFloat d.asString = some ((digitsVal d : ℚ)) := by
  unfold ParseFloat
  have hdata : d.asString.data = d := rfl
  rw [hdata, strconvParseFloat_digits d hne hd]

theorem strconvParseFloat_comma (a b : List Char) (hne : a ≠ [])
    (hd : ∀ c ∈ a, c.isDigit = true) :
    strconvParseFloat (a ++ ',' :: b) = none := by
  obtain ⟨c, t, rfl⟩ := List.exists_cons_of_ne_nil hne
  have hc := hd c (by simp)
  obtain ⟨htake, hdrop⟩ := takeWhile_append_stop (c :: t) b ',' hd (by decide)
  simp only [List.cons_append] at htake hdrop
  unfold strconvParseFloat
  simp only [List.cons_append, List.head?_cons, Option.some.injEq]
  rw [if_neg (digit_not_special hc).2.1,
    if_neg (not_or.mpr ⟨(digit_not_special hc).1, (digit_not_special hc).2.1⟩)]
  simp [htake, hdrop]

theorem findIdxE_none (l : List Char) (hd : ∀ c ∈ l, c.isDigit = true) :
    l.findIdx? (fun c => c == 'e' || c == 'E') = none := by
  refine List.findIdx?_eq_none_iff.mpr (fun x hx => ?_)
  have h := digit_not_special (hd x hx)
  simp [h.2.2.2.1, h.2.2.2.2.1]

theorem filter_comma (a b : List Char) (hda : ∀ c ∈ a, c.isDigit = true)
    (hdb : ∀ c ∈ b, c.isDigit = true) :
    (a ++ ',' :: b).filter (fun c => c != ',') = a ++ b := by
  rw [List.filter_append]
  congr 1
  · exact List.filter_eq_self.mpr
      (fun x hx => by simp [bne_iff_ne, (digit_not_special (hda x hx)).2.2.2.2.2])
  · rw [List.filter_cons_of_neg (by simp)]
    exact List.filter_eq_self.mpr
      (fun x hx => by simp [bne_iff_ne, (digit_not_special (hdb x hx)).2.2.2.2.2])

/-- Claim C4 (amended): comma stripping happens inside util.ParseFloat, and
at that level a comma-grouped digit literal parses to the same quantity as
its ungrouped form; but ParseQuantity never hands a comma to ParseFloat
(the literal capture group cannot contain one), so at the ParseQuantity
level the property fails — see the counterexample. -/
theorem ParseFloat_comma_grouped (a b : List Char) (ha : a ≠ [])
    (hda : ∀ c ∈ a, c.isDigit = true) (hdb : ∀ c ∈ b, c.isDigit = true) :
    ParseFloat (a ++ ',' :: b).asString = some ((digitsVal (a ++ b) : ℚ)) ∧
    ParseFloat (a ++ b).asString = some ((digitsVal (a ++ b) : ℚ)) := by
  have hdab : ∀ c ∈ a ++ b, c.isDigit = true := by
    intro c hc
    rcases List.mem_append.mp hc with h | h
    exacts [hda c h, hdb c h]
  have habne : a ++ b ≠ [] := by
    cases a with
    | nil => exact absurd rfl ha
    | cons x xs => simp
  refine ⟨?_, ParseFloat_digits _ habne hdab⟩
  unfold ParseFloat
  have hdata : (a ++ ',' :: b).asString.data = a ++ ',' :: b := rfl
  rw [hdata, strconvParseFloat_comma a b ha hda]
  simp only [filter_comma a b hda hdb, findIdxE_none _ hdab,
    strconvParseFloat_digits _ habne hdab]

/-- Claim C4 (amended) at the claim's own example literal. -/
theorem ParseFloat_comma_grouped_witness :
    ParseFloat "1,000" = ParseFloat "1000" := by
  have h := ParseFloat_comma_grouped ['1'] ['0', '0', '0'] (by decide) (by decide) (by decide)
  have e1 : (['1'] ++ ',' :: ['0', '0', '0']).asString = "1,000" := rfl
  have e2 : ((['1'] : List Char) ++ ['0', '0', '0']).asString = "1000" := rfl
  rw [e1, e2] at h
  rw [h.1, h.2]

theorem memGroupsAt_digits (d : List Char) (hd : ∀ c ∈ d, c.isDigit = true) :
    memGroupsAt d = some (d, []) := by
  have htake : d.takeWhile Char.isDigit = d := List.takeWhile_eq_self_iff.mpr hd
  have hdrop : d.dropWhile Char.isDigit = [] := List.dropWhile_eq_nil_iff.mpr hd
  unfold memGroupsAt
  rw [hdrop, htake]
  simp [memSuffixAt]

theorem memGroupsAt_digits_suffix (d : List Char) (u : Char) (rest : List Char)
    (hd : ∀ c ∈ d, c.isDigit = true) (hu1 : u.isDigit = false) (hu2 : u ≠ 'e')
    (hs : memSuffixAt (u :: rest) = some (u :: rest)) :
    memGroupsAt (d ++ u :: rest) = some (d, u :: rest) := by
  obtain ⟨htake, hdrop⟩ := takeWhile_append_stop d rest u hd hu1
  unfold memGroupsAt
  rw [hdrop, htake, hs]
  simp only [List.head?_cons, Option.some.injEq]
  rw [if_neg hu2]
  rfl

theorem memFirstFrom_of_head (cs : List Char) (g : List Char × List Char)
    (hne : cs ≠ []) (h : memGroupsAt cs = some g) : memFirstFrom cs = some g := by
  obtain ⟨c, t, rfl⟩ := List.exists_cons_of_ne_nil hne
  unfold memFirstFrom
  rw [h]

theorem MemoryToNumber_digits (d : List Char) (hne : d ≠ [])
    (hd : ∀ c ∈ d, c.isDigit = true) :
    MemoryToNumber d.asString = .ok (digitsVal d) := by
  unfold MemoryToNumber convertResource memRe
  have hdata : d.asString.data = d := rfl
  rw [hdata, memFirstFrom_of_head d (d, []) hne (memGroupsAt_digits d hd)]
  simp [ParseFloat_digits d hne hd]

theorem MemoryToNumber_digits_suffix (d : List Char) (u : Char) (rest : List Char)
    (mult : ℚ) (hne : d ≠ []) (hd : ∀ c ∈ d, c.isDigit = true)
    (hu1 : u.isDigit = false) (hu2 : u ≠ 'e')
    (hs : memSuffixAt (u :: rest) = some (u :: rest))
    (hconv : memConversions (u :: rest).asString = some mult) :
    MemoryToNumber (d ++ u :: rest).asString = .ok (digitsVal d * mult) := by
  unfold MemoryToNumber convertResource memRe
  have hdata : (d ++ u :: rest).asString.data = d ++ u :: rest := rfl
  have hne2 : d ++ u :: rest ≠ [] := by
    cases d <;> simp
  rw [hdata, memFirstFrom_of_head _ (d, u :: rest) hne2
    (memGroupsAt_digits_suffix d u rest hd hu1 hu2 hs)]
  simp [ParseFloat_digits d hne hd, hconv]

/-- Claim C9: `ParseQuantity("1Gi", MEMORY) = 1073741824` and
`ParseQuantity("100Mi", MEMORY) = 104857600`; and for every nonempty digit
literal, a binary suffix Ki..Ei multiplies it by the matching power of
1024, a decimal suffix K..E by the matching power of 1000, and the absence
of a suffix yields the literal as a raw byte count. -/
theorem memory_suffix_semantics :
    MemoryToNumber "1Gi" = .ok 1073741824 ∧
    MemoryToNumber "100Mi" = .ok 104857600 ∧
    ∀ d : List Char, d ≠ [] → (∀ c ∈ d, c.isDigit = true) →
      MemoryToNumber d.asString = .ok (digitsVal d) ∧
      MemoryToNumber (d ++ ['K', 'i']).asString = .ok (digitsVal d * 1024) ∧
      MemoryToNumber (d ++ ['M', 'i']).asString = .ok (digitsVal d * 1024 ^ 2) ∧
      MemoryToNumber (d ++ ['G', 'i']).asString = .ok (digitsVal d * 1024 ^ 3) ∧
      MemoryToNumber (d ++ ['T', 'i']).asString = .ok (digitsVal d * 1024 ^ 4) ∧
      MemoryToNumber (d ++ ['P', 'i']).asString = .ok (digitsVal d * 1024 ^ 5) ∧
      MemoryToNumber (d ++ ['E', 'i']).asString = .ok (digitsVal d * 1024 ^ 6) ∧
      MemoryToNumber (d ++ ['K']).asString = .ok (digitsVal d * 1000) ∧
      MemoryToNumber (d ++ ['M']).asString = .ok (digitsVal d * 1000 ^ 2) ∧
      MemoryToNumber (d ++ ['G']).asString = .ok (digitsVal d * 1000 ^ 3) ∧
      MemoryToNumber (d ++ ['T']).asString = .ok (digitsVal d * 1000 ^ 4) ∧
      MemoryToNumber (d ++ ['P']).asString = .ok (digitsVal d * 1000 ^ 5) ∧
      MemoryToNumber (d ++ ['E']).asString = .ok (digitsVal d * 1000 ^ 6) := by
  refine ⟨by decide, by decide, fun d hne hd => ?_⟩
  refine ⟨MemoryToNumber_digits d hne hd, ?_, ?_, ?_, ?_, ?_, ?_, ?_, ?_, ?_, ?_, ?_, ?_⟩
  · exact MemoryToNumber_digits_suffix d 'K' ['i'] 1024 hne hd
      (by decide) (by decide) (by decide) (by decide)
  · rw [show ((1024 : ℚ) ^ 2) = 1048576 by norm_num]
    exact MemoryToNumber_digits_suffix d 'M' ['i'] 1048576 hne hd
      (by decide) (by decide) (by decide) (by decide)
  · rw [show ((1024 : ℚ) ^ 3) = 1073741824 by norm_num]
    exact MemoryToNumber_digits_suffix d 'G' ['i'] 1073741824 hne hd
      (by decide) (by decide) (by decide) (by decide)
  · rw [show ((1024 : ℚ) ^ 4) = 1099511627776 by norm_num]
    exact MemoryToNumber_digits_suffix d 'T' ['i'] 1099511627776 hne hd
      (by decide) (by decide) (by decide) (by decide)
  · rw [show ((1024 : ℚ) ^ 5) = 1125899906842624 by norm_num]
    exact MemoryToNumber_digits_suffix d 'P' ['i'] 1125899906842624 hne hd
      (by decide) (by decide) (by decide) (by decide)
  · rw [show ((1024 : ℚ) ^ 6) = 1152921504606846976 by norm_num]
    exact MemoryToNumber_digits_suffix d 'E' ['i'] 1152921504606846976 hne hd
      (by decide) (by decide) (by decide) (by decide)
  · exact MemoryToNumber_digits_suffix d 'K' [] 1000 hne hd
      (by decide) (by decide) (by decide) (by decide)
  · rw [show ((1000 : ℚ) ^ 2) = 1000000 by norm_num]
    exact MemoryToNumber_digits_suffix d 'M' [] 1000000 hne hd
      (by decide) (by decide) (by decide) (by decide)
  · rw [show ((1000 : ℚ) ^ 3) = 1000000000 by norm_num]
    exact MemoryToNumber_digits_suffix d 'G' [] 1000000000 hne hd
      (by decide) (by decide) (by decide) (by decide)
  · rw [show ((1000 : ℚ) ^ 4) = 1000000000000 by norm_num]
    exact MemoryToNumber_digits_suffix d 'T' [] 1000000000000 hne hd
      (by decide) (by decide) (by decide) (by decide)
  · rw [show ((1000 : ℚ) ^ 5) = 1000000000000000 by norm_num]
    exact MemoryToNumber_digits_suffix d 'P' [] 1000000000000000 hne hd
      (by decide) (by decide) (by decide) (by decide)
  · rw [show ((1000 : ℚ) ^ 6) = 1000000000000000000 by norm_num]
    exact MemoryToNumber_digits_suffix d 'E' [] 1000000000000000000 hne hd
      (by decide) (by decide) (by decide) (by decide)

/-- Claim C9 at a concrete input: a two-kibibyte literal. -/
theorem memory_suffix_semantics_witness :
    MemoryToNumber (['2'] ++ ['K', 'i']).asString = .ok (digitsVal ['2'] * 1024) :=
  (memory_suffix_semantics.2.2 ['2'] (by decide) (by decide)).2.1

end Devtron
